import Mathlib

/-!
Shallow embedding of the chat-session core of the Prompting Realities webapp:
the presence-based queue resolver, the chat turn coordinator (handleSend),
the history loader, and the reset-conversation operation, together with
theorems settling the specification claims about them.
-/

namespace PromptingRealities

mutual

/-- JSON-like values as they flow through the app (model payloads, MQTT
values, persisted `jsonb` columns). `null` models both SQL null inside a
JSON document and the JS `null` literal; absence of a property is modelled
by `Option` at the use sites. -/
inductive Json where
  | null
  | str (s : String)
  | num (n : Int)
  | bool (b : Bool)
  | arr (elems : JsonList)
  | obj (fields : JsonFields)
deriving DecidableEq, Repr

/-- A list of JSON values (array elements). -/
inductive JsonList where
  | nil
  | cons (hd : Json) (tl : JsonList)
deriving DecidableEq, Repr

/-- An association list of JSON object fields. -/
inductive JsonFields where
  | nil
  | cons (key : String) (val : Json) (tl : JsonFields)
deriving DecidableEq, Repr

end

/-- Number of elements of a JSON array. -/
def JsonList.length : JsonList → Nat
  | .nil => 0
  | .cons _ tl => 1 + tl.length

/-- First field with the given key, if any (JS objects have unique keys). -/
def JsonFields.lookup (key : String) : JsonFields → Option Json
  | .nil => none
  | .cons k v tl => if k = key then some v else tl.lookup key

/-- The field names of a JSON object, in order. -/
def JsonFields.keys : JsonFields → List String
  | .nil => []
  | .cons k _ tl => k :: tl.keys

/-- JS property access `j[key]`: `none` models `undefined`. Property access
on a primitive yields `undefined`; string keys never hit array indices in
the code under study. -/
def Json.get (j : Json) (key : String) : Option Json :=
  match j with
  | .obj fields => fields.lookup key
  | _ => none

/-- JS `Object.keys`: field names for objects, index strings for arrays,
nothing for primitives. -/
def Json.jsKeys : Json → List String
  | .obj fields => fields.keys
  | .arr elems => (List.range elems.length).map toString
  | _ => []

/-- The JS test `typeof v === "object"`: true for plain objects, arrays and
`null`. -/
def Json.isObjectType : Json → Bool
  | .null => true
  | .arr _ => true
  | .obj _ => true
  | _ => false

/-- JS truthiness of a possibly-`undefined` value (`none` = `undefined`). -/
def jsTruthy : Option Json → Bool
  | none => false
  | some .null => false
  | some (.str s) => !s.isEmpty
  | some (.num n) => n != 0
  | some (.bool b) => b
  | some (.arr _) => true
  | some (.obj _) => true

/-- JS truthiness of a nullable string. -/
def strTruthy : Option String → Bool
  | none => false
  | some s => !s.isEmpty

/-- The check `j.key !== undefined && j.key !== null` from the MQTT value
extraction: the property value when it is present and non-null. -/
def Json.getPresent (j : Json) (key : String) : Option Json :=
  match j.get key with
  | some v => if v = .null then none else some v
  | none => none

/-- The MQTT value extraction chain of `handleSend`: check `MQTT_value`,
then `MQTT_values`, then `values`, in that order, each accepted only when
present and non-null; otherwise fall back to the whole payload. -/
def extractMqttValue (payload : Json) : Json :=
  match payload.getPresent "MQTT_value" with
  | some v => v
  | none =>
    match payload.getPresent "MQTT_values" with
    | some v => v
    | none =>
      match payload.getPresent "values" with
      | some v => v
      | none => payload

/-- The `mqttValueToSave` step: the extracted value is remembered for persistence
only when it is not null/undefined. -/
def mqttValueToSave (payload : Json) : Option Json :=
  let v := extractMqttValue payload
  if v = .null then none else some v

/-- The pre-publish wrapping of `handleSend`: if the extracted value is
null, undefined, the empty string, or not of object type, it is wrapped as
an object with single field `value` before being sent to the broker. -/
def wrapMqttPayload (v : Json) : Json :=
  if v = .null ∨ v = .str "" ∨ !v.isObjectType then
    .obj (.cons "value" v .nil)
  else v

mutual

/-- A JSON serializer standing in for `JSON.stringify` (exact whitespace of
the JS pretty-printer is irrelevant to every claim; only which bubbles
exist and their flags matter). -/
def Json.stringify : Json → String
  | .null => "null"
  | .str s => "\"" ++ s ++ "\""
  | .num n => toString n
  | .bool b => if b then "true" else "false"
  | .arr elems => "[" ++ JsonList.stringifyElems elems ++ "]"
  | .obj fields => "\x7b" ++ JsonFields.stringifyFields fields ++ "\x7d"

/-- Comma-separated serialization of array elements. -/
def JsonList.stringifyElems : JsonList → String
  | .nil => ""
  | .cons hd .nil => Json.stringify hd
  | .cons hd tl => Json.stringify hd ++ "," ++ JsonList.stringifyElems tl

/-- Comma-separated serialization of object fields. -/
def JsonFields.stringifyFields : JsonFields → String
  | .nil => ""
  | .cons k v .nil => "\"" ++ k ++ "\":" ++ Json.stringify v
  | .cons k v tl => "\"" ++ k ++ "\":" ++ Json.stringify v ++ "," ++ JsonFields.stringifyFields tl

end

/-- A user reaction on an assistant message. -/
inductive Reaction where
  | like
  | dislike
deriving DecidableEq, Repr

/-- The role of a chat bubble. -/
inductive Role where
  | user
  | assistant
deriving DecidableEq, Repr

/-- A locally rendered chat bubble (the page-local `ChatMessage` type).
Timestamps are modelled as naturals; `mqttFailed` absent in the source is
modelled as `false` (it is only ever read for truthiness). -/
structure Bubble where
  id : String
  dbMessageId : Option String
  role : Role
  content : String
  timestamp : Nat
  mqttFailed : Bool
  reaction : Option Reaction
deriving DecidableEq, Repr

/-- A persisted `chat_messages` row. `none` models SQL null. -/
structure MessageRow where
  id : String
  session_id : String
  assistant_id : String
  user_text : Option String
  assistant_payload : Option Json
  response_text : Option String
  mqtt_payload : Option Json
  device_id : Option String
  thread_id : Option String
  reaction : Option Reaction
  created_at : Nat
deriving DecidableEq, Repr

/-- An `assistant_sessions` row (the fields the chat page reads). -/
structure SessionRec where
  id : String
  assistant_id : String
  active : Bool
  share_token : String
  current_thread_id : Option String
deriving DecidableEq, Repr

/-- The assistant configuration fields the chat page reads for MQTT
routing; `none` models a SQL-null column, `some ""` an empty string (both
falsy in the JS guards). -/
structure AssistantRec where
  id : String
  mqtt_host : Option String
  mqtt_topic : Option String
deriving DecidableEq, Repr

/-! ## Queue Resolver

The presence sync handler sorts the live viewer list ascending by
`joined_at` (JS `Array.prototype.sort` with a numeric comparator, which is
stable), finds the index of this device via `findIndex` (`-1` when
absent), and derives `queuePosition = index + 1` and
`isActiveUser = (index == 0)`. -/

/-- A live presence record: device id and join timestamp (milliseconds). -/
structure PresenceRecord where
  device_id : String
  joined_at : Nat
deriving DecidableEq, Repr

/-- The comparison relation of the presence sort: ascending `joined_at`. -/
def byJoin (a b : PresenceRecord) : Prop := a.joined_at ≤ b.joined_at

instance : DecidableRel byJoin := fun a b => Nat.decLe a.joined_at b.joined_at

instance : IsTotal PresenceRecord byJoin := ⟨fun a b => Nat.le_total a.joined_at b.joined_at⟩

instance : IsTrans PresenceRecord byJoin := ⟨fun _ _ _ => Nat.le_trans⟩

/-- The stable ascending sort of the viewer list by `joined_at`. -/
def sortViewers (viewers : List PresenceRecord) : List PresenceRecord :=
  List.insertionSort byJoin viewers

/-- JS `Array.prototype.findIndex`: the index of the first match, `-1` when
there is none. -/
def findIndexJs {α : Type} (p : α → Bool) (l : List α) : Int :=
  match l.findIdx? p with
  | some i => (i : Int)
  | none => -1

/-- The sorted-queue index of a device (`myPosition` in the source). -/
def myQueueIndex (viewers : List PresenceRecord) (did : String) : Int :=
  findIndexJs (fun v => v.device_id = did) (sortViewers viewers)

/-- The derived `queuePosition`: 1-indexed position in the queue, 0 when the device is
not tracked. -/
def queuePosition (viewers : List PresenceRecord) (did : String) : Int :=
  myQueueIndex viewers did + 1

/-- The derived `isActiveUser` flag: only the device at sorted index 0 may chat. -/
def isActiveUser (viewers : List PresenceRecord) (did : String) : Bool :=
  myQueueIndex viewers did = 0

/-- The displayed `viewersAhead` count: `queue_position - 1`. -/
def viewersAhead (viewers : List PresenceRecord) (did : String) : Int :=
  queuePosition viewers did - 1

/-! ## Turn Coordinator (`handleSend`)

The send handler is modelled as a pure function of the client state and an
environment recording the outcomes of the external calls it makes (session
fetch, auth lookup, assistant fetch, model call, MQTT publish, row
insert). -/

/-- Client-side state of the chat page that `handleSend` reads and
writes. -/
structure ClientState where
  assistantId : String
  sessionId : Option String
  token : Option String
  shareToken : Option String
  input : String
  messages : List Bubble
  lastResponseId : Option String
  threadId : String
  deviceId : String
  error : Option String
deriving Repr

/-- The backend chat response: structured payload, continuation id, and the
display text extracted by the backend. -/
structure ModelResp where
  payload : Option Json
  response_id : Option String
  display_text : Option String
deriving DecidableEq, Repr

/-- Outcomes of the external calls one send makes: `none` for a fetch or
call models that call throwing. `newMessageId` and `now` stand for the
store-assigned row id and the clock. -/
structure SendEnv where
  session : Option SessionRec
  user : Option String
  assistant : Option AssistantRec
  modelResp : Option ModelResp
  publishOk : Bool
  persistOk : Bool
  newMessageId : String
  now : Nat
deriving Repr

/-- Result of one send: the new local message list, the row written to the
store (if any), the payload actually published to the broker (if a publish
was attempted), whether a publish was attempted, whether the model call was
reached, the composer error, and the remembered continuation id. -/
structure SendOutcome where
  messages : List Bubble
  persisted : Option MessageRow
  published : Option Json
  attempted : Bool
  modelCalled : Bool
  error : Option String
  lastResponseId : Option String
deriving Repr

/-- Whitespace characters stripped by `String.prototype.trim` (the ones
that can occur in this app's inputs). -/
def isWsChar (c : Char) : Bool := c = ' ' || c = '\t' || c = '\n' || c = '\r'

/-- JS `String.prototype.trim`: strip leading and trailing whitespace. -/
def jsTrim (s : String) : String :=
  String.mk (((s.toList.dropWhile isWsChar).reverse.dropWhile isWsChar).reverse)

/-- Does the first character list start with the second? -/
def startsWithChars : List Char → List Char → Bool
  | _, [] => true
  | [], _ :: _ => false
  | c :: cs, p :: ps => c = p && startsWithChars cs ps

/-- Does the first character list contain the second as a contiguous
run? -/
def containsChars : List Char → List Char → Bool
  | [], pat => pat.isEmpty
  | c :: cs, pat => startsWithChars (c :: cs) pat || containsChars cs pat

/-- JS `String.prototype.includes`. -/
def includesJs (s pat : String) : Bool := containsChars s.toList pat.toList

/-- The catch-block mapping from a thrown error message to the composer
error shown to the user. -/
def mapSendError (msg : String) : String :=
  if includesJs msg "Session is not running" || includesJs msg "not running" ||
      includesJs msg "not active" then
    "This session has stopped. The host needs to start a new run."
  else if includesJs msg "Not authorized" || includesJs msg "Authentication required" then
    "You need to log in to send messages. Viewing history works without login."
  else msg

/-- The optimistic user bubble inserted before the turn executes; its temp
id is derived from the clock. -/
def optimisticBubble (content : String) (now : Nat) : Bubble :=
  { id := "temp-" ++ toString now, dbMessageId := none, role := .user,
    content := content, timestamp := now, mqttFailed := false, reaction := none }

/-- One execution of `handleSend`, from the guards through optimistic
insert, session/auth checks, model call, MQTT extraction + publish, row
persistence, and local-view update, with the catch-block rollback on every
failure path. -/
def handleSend (st : ClientState) (env : SendEnv) : SendOutcome :=
  if st.sessionId.isNone || (st.token.isNone && st.shareToken.isNone) then
    { messages := st.messages, persisted := none, published := none, attempted := false,
      modelCalled := false, error := st.error, lastResponseId := st.lastResponseId }
  else
    let trimmed := jsTrim st.input
    if trimmed.isEmpty then
      { messages := st.messages, persisted := none, published := none, attempted := false,
        modelCalled := false, error := st.error, lastResponseId := st.lastResponseId }
    else
      let tempId := "temp-" ++ toString env.now
      let optimistic := optimisticBubble trimmed env.now
      let msgs1 := st.messages ++ [optimistic]
      let rolledBack := msgs1.filter (fun b => b.id ≠ tempId)
      match env.session with
      | none =>
        { messages := rolledBack, persisted := none, published := none, attempted := false,
          modelCalled := false, error := some (mapSendError "Failed to fetch session"),
          lastResponseId := st.lastResponseId }
      | some session =>
        if !session.active then
          { messages := rolledBack, persisted := none, published := none, attempted := false,
            modelCalled := false, error := some (mapSendError "Session is not running"),
            lastResponseId := st.lastResponseId }
        else if env.user.isNone && st.shareToken.isNone then
          { messages := rolledBack, persisted := none, published := none, attempted := false,
            modelCalled := false, error := some (mapSendError "Not authorized"),
            lastResponseId := st.lastResponseId }
        else
          match env.assistant with
          | none =>
            { messages := rolledBack, persisted := none, published := none, attempted := false,
              modelCalled := false,
              error := some (mapSendError "Failed to fetch assistant configuration"),
              lastResponseId := st.lastResponseId }
          | some assistantData =>
            match env.modelResp with
            | none =>
              { messages := rolledBack, persisted := none, published := none, attempted := false,
                modelCalled := true, error := some (mapSendError "Model call failed"),
                lastResponseId := st.lastResponseId }
            | some aiResponse =>
              let newLastResponseId := match aiResponse.response_id with
                | some rid => some rid
                | none => st.lastResponseId
              let mqttPublishAttempted :=
                jsTruthy aiResponse.payload && strTruthy assistantData.mqtt_host &&
                  strTruthy assistantData.mqtt_topic
              let payloadJson := aiResponse.payload.getD .null
              let valueToSave : Option Json :=
                if mqttPublishAttempted then mqttValueToSave payloadJson else none
              let published : Option Json :=
                if mqttPublishAttempted then
                  some (wrapMqttPayload (extractMqttValue payloadJson))
                else none
              let mqttPublishSuccess := mqttPublishAttempted && env.publishOk
              let responseText : Option String :=
                if strTruthy aiResponse.display_text then aiResponse.display_text else none
              if st.threadId.isEmpty then
                { messages := rolledBack, persisted := none, published := published,
                  attempted := mqttPublishAttempted, modelCalled := true,
                  error := some (mapSendError "Thread ID not initialized"),
                  lastResponseId := newLastResponseId }
              else
                let row : MessageRow :=
                  { id := env.newMessageId
                    session_id := st.sessionId.getD ""
                    assistant_id := st.assistantId
                    user_text := some trimmed
                    assistant_payload := aiResponse.payload
                    response_text := responseText
                    mqtt_payload :=
                      if mqttPublishAttempted && mqttPublishSuccess then valueToSave else none
                    device_id := if env.user.isSome then none else some st.deviceId
                    thread_id := some st.threadId
                    reaction := none
                    created_at := env.now }
                if !env.persistOk then
                  { messages := rolledBack, persisted := none, published := published,
                    attempted := mqttPublishAttempted, modelCalled := true,
                    error := some (mapSendError "Failed to save message"),
                    lastResponseId := newLastResponseId }
                else
                  let newUserMessage : Bubble :=
                    { id := env.newMessageId ++ "-user", dbMessageId := none, role := .user,
                      content := trimmed, timestamp := env.now, mqttFailed := false,
                      reaction := none }
                  let newAssistantMessage : Bubble :=
                    { id := env.newMessageId ++ "-assistant",
                      dbMessageId := some env.newMessageId, role := .assistant,
                      content := match responseText with
                        | some t => t
                        | none => Json.stringify payloadJson
                      timestamp := env.now,
                      mqttFailed := mqttPublishAttempted && !mqttPublishSuccess,
                      reaction := none }
                  { messages := rolledBack ++ [newUserMessage, newAssistantMessage],
                    persisted := some row, published := published,
                    attempted := mqttPublishAttempted, modelCalled := true, error := none,
                    lastResponseId := newLastResponseId }

/-! ## History loader -/

/-- The comparison relation of the history query ordering: ascending
creation time. -/
def byCreated (a b : MessageRow) : Prop := a.created_at ≤ b.created_at

instance : DecidableRel byCreated := fun a b => Nat.decLe a.created_at b.created_at

instance : IsTotal MessageRow byCreated := ⟨fun a b => Nat.le_total a.created_at b.created_at⟩

instance : IsTrans MessageRow byCreated := ⟨fun _ _ _ => Nat.le_trans⟩

/-- The history query of the chat page: rows of this session and this
thread, ordered by creation time ascending. -/
def queryThreadMessages (store : List MessageRow) (sessionId threadId : String) :
    List MessageRow :=
  List.insertionSort byCreated
    (store.filter (fun r => r.session_id = sessionId && r.thread_id = some threadId))

/-- The `displayableRecords` filter: drop a row exactly when it has no
truthy `user_text` or `response_text` and its `assistant_payload` is a
non-null object whose only key is `_response_id_marker`. -/
def isDisplayable (r : MessageRow) : Bool :=
  if strTruthy r.user_text || strTruthy r.response_text then true
  else
    match r.assistant_payload with
    | some p =>
      if jsTruthy (some p) && p.isObjectType then
        let keys := p.jsKeys
        if keys.length = 1 ∧ keys.head? = some "_response_id_marker" then false else true
      else true
    | none => true

/-- The loader helper `mapMessageRecord`: turn one persisted row into its rendered bubbles —
a user bubble when `user_text` is truthy, and an assistant bubble when
`response_text` or `assistant_payload` is truthy, flagged `mqttFailed`
exactly when `assistant_payload` is non-null and `mqtt_payload` is null. -/
def mapMessageRecord (m : MessageRow) : List Bubble :=
  let userPart : List Bubble :=
    if strTruthy m.user_text then
      [{ id := m.id ++ "-user", dbMessageId := none, role := .user,
         content := m.user_text.getD "", timestamp := m.created_at,
         mqttFailed := false, reaction := none }]
    else []
  let assistantPart : List Bubble :=
    if strTruthy m.response_text || jsTruthy m.assistant_payload then
      [{ id := m.id ++ "-assistant", dbMessageId := some m.id, role := .assistant,
         content :=
           if strTruthy m.response_text then m.response_text.getD ""
           else Json.stringify (m.assistant_payload.getD .null),
         timestamp := m.created_at,
         mqttFailed := m.assistant_payload.isSome && m.mqtt_payload.isNone,
         reaction := m.reaction }]
    else []
  userPart ++ assistantPart

/-- The load path of the chat page: fetch the session, validate a presented
share token against the stored one, then query this thread, drop marker
rows, and map the remainder to bubbles. Errors are the user-facing strings
the catch block maps them to. -/
def loadChat (store : List MessageRow) (session : Option SessionRec)
    (sessionId : String) (shareToken : Option String) (threadId : String) :
    Except String (List Bubble) :=
  match session with
  | none => .error "Session not found. Please check the link."
  | some s =>
    if strTruthy shareToken && s.share_token ≠ shareToken.getD "" then
      .error "Session link is invalid or expired. Ask the host for a new link."
    else if threadId.isEmpty then
      .error "Unable to load chat history."
    else
      let records := queryThreadMessages store sessionId threadId
      let displayableRecords := records.filter isDisplayable
      .ok (displayableRecords.flatMap mapMessageRecord)

/-! ## Reset and the store-level transition system -/

/-- Client-state effect of `confirmResetConversation`: clear the in-memory
message view, clear the remembered continuation id, and adopt the freshly
minted thread id. No store operation is issued. -/
def resetConversation (c : ClientState) (newThreadId : String) : ClientState :=
  { c with messages := [], lastResponseId := none, threadId := newThreadId }

/-- A user-level operation on the chat page. -/
inductive Op where
  | send (input : String) (env : SendEnv)
  | reset (newThreadId : String)

/-- The durable store together with one client. -/
structure AppState where
  store : List MessageRow
  client : ClientState

/-- One operation step: a send appends the persisted row (if any) to the
store and updates the local view; a reset only rewrites client state. -/
def stepOp (s : AppState) : Op → AppState
  | .send input env =>
    let c := { s.client with input := input }
    let out := handleSend c env
    let c2 := { c with messages := out.messages, error := out.error, lastResponseId := out.lastResponseId }
    { store := s.store ++ out.persisted.toList, client := c2 }
  | .reset newThreadId =>
    { store := s.store, client := resetConversation s.client newThreadId }

/-- Run a sequence of operations. -/
def runOps (s : AppState) (ops : List Op) : AppState := ops.foldl stepOp s

/-- Number of stored rows belonging to one session. -/
def sessionRowCount (store : List MessageRow) (sid : String) : Nat :=
  store.countP (fun r => r.session_id = sid)

/-! ## Concrete sample data (used by witnesses and counterexamples) -/

/-- A sample model payload declaring both `answer` and `MQTT_value`. -/
def samplePayload : Json :=
  .obj (.cons "answer" (.str "x")
    (.cons "MQTT_value" (.obj (.cons "answer" (.str "x") .nil)) .nil))

/-- A sample client state: anonymous viewer holding a valid share token. -/
def stBase : ClientState :=
  { assistantId := "asst-1", sessionId := some "sess-1", token := none,
    shareToken := some "secret", input := "hello", messages := [],
    lastResponseId := none, threadId := "thread-A", deviceId := "dev-1",
    error := none }

/-- A sample running session. -/
def sessBase : SessionRec :=
  { id := "sess-1", assistant_id := "asst-1", active := true,
    share_token := "secret", current_thread_id := none }

/-- A sample assistant with MQTT host and topic configured. -/
def asstBase : AssistantRec :=
  { id := "asst-1", mqtt_host := some "broker.local", mqtt_topic := some "news" }

/-- A sample environment where every external call succeeds. -/
def envBase : SendEnv :=
  { session := some sessBase, user := none, assistant := some asstBase,
    modelResp := some { payload := some samplePayload, response_id := some "resp-1",
                        display_text := some "x" },
    publishOk := true, persistOk := true, newMessageId := "msg-1", now := 1000 }

/-! ## Helper lemmas -/

/-- A value accepted by the present-and-non-null check is not null. -/
lemma getPresent_ne_null {j : Json} {k : String} {v : Json}
    (h : j.getPresent k = some v) : v ≠ .null := by
  unfold Json.getPresent at h
  split at h
  · split at h
    · exact absurd h (by simp)
    · rename_i hne
      intro hv
      exact hne (Option.some_injective _ h ▸ hv)
  · exact absurd h (by simp)

/-- For a truthy payload the extracted MQTT value is never null. -/
lemma extractMqttValue_ne_null {p : Json} (hp : jsTruthy (some p) = true) :
    extractMqttValue p ≠ .null := by
  unfold extractMqttValue
  split
  · exact getPresent_ne_null (by assumption)
  · split
    · exact getPresent_ne_null (by assumption)
    · split
      · exact getPresent_ne_null (by assumption)
      · intro hp'
        subst hp'
        simp [jsTruthy] at hp

/-- For a truthy payload, `mqttValueToSave` is exactly the extracted
value. -/
lemma mqttValueToSave_eq_extract {p : Json} (hp : jsTruthy (some p) = true) :
    mqttValueToSave p = some (extractMqttValue p) := by
  unfold mqttValueToSave
  simp [extractMqttValue_ne_null hp]

/-- Inversion for a send that persisted a row: the external calls all
succeeded and the row and publication data are determined by the
environment. -/
lemma handleSend_persisted_inv (st : ClientState) (env : SendEnv) (r : MessageRow)
    (h : (handleSend st env).persisted = some r) :
    ∃ aiResponse assistantData,
      env.modelResp = some aiResponse ∧
      env.assistant = some assistantData ∧
      (handleSend st env).attempted =
        (jsTruthy aiResponse.payload && strTruthy assistantData.mqtt_host &&
          strTruthy assistantData.mqtt_topic) ∧
      r.assistant_payload = aiResponse.payload ∧
      r.user_text = some (jsTrim st.input) ∧
      r.thread_id = some st.threadId ∧
      r.session_id = st.sessionId.getD "" ∧
      r.mqtt_payload =
        (if (handleSend st env).attempted && env.publishOk then
          mqttValueToSave (aiResponse.payload.getD .null)
        else none) ∧
      (handleSend st env).published =
        (if (handleSend st env).attempted then
          some (wrapMqttPayload (extractMqttValue (aiResponse.payload.getD .null)))
        else none) := by
  revert h
  generalize hout : handleSend st env = out
  intro h
  simp only [handleSend] at hout
  split at hout
  · subst hout; exact absurd h (by simp)
  split at hout
  · subst hout; exact absurd h (by simp)
  split at hout
  · subst hout; exact absurd h (by simp)
  rename_i session hsession
  split at hout
  · subst hout; exact absurd h (by simp)
  split at hout
  · subst hout; exact absurd h (by simp)
  split at hout
  · subst hout; exact absurd h (by simp)
  rename_i assistantData hassistant
  split at hout
  · subst hout; exact absurd h (by simp)
  rename_i aiResponse hmodel
  split at hout
  · subst hout; exact absurd h (by simp)
  split at hout
  · subst hout; exact absurd h (by simp)
  subst hout
  simp only [] at h
  refine ⟨aiResponse, assistantData, hmodel, hassistant, ?_⟩
  have hr : r = _ := (Option.some_injective _ h).symm
  subst hr
  refine ⟨rfl, rfl, rfl, rfl, rfl, ?_, ?_⟩
  · cases hA : (jsTruthy aiResponse.payload && strTruthy assistantData.mqtt_host &&
        strTruthy assistantData.mqtt_topic) <;>
      cases hP : env.publishOk <;> simp [hA, hP]
  · cases hA : (jsTruthy aiResponse.payload && strTruthy assistantData.mqtt_host &&
        strTruthy assistantData.mqtt_topic) <;> simp [hA]

/-- C3: every ChatMessage row written by the turn coordinator has a
non-null `mqtt_payload` only when an MQTT publish was attempted and
reported success; when the publish was not attempted or failed,
`mqtt_payload` is stored as null; and on success the stored `mqtt_payload`
equals the extracted MQTT value. -/
theorem persisted_delivery_invariant (st : ClientState) (env : SendEnv) (r : MessageRow)
    (h : (handleSend st env).persisted = some r) :
    (r.mqtt_payload ≠ none →
      (handleSend st env).attempted = true ∧ env.publishOk = true) ∧
    ((handleSend st env).attempted = false ∨ env.publishOk = false →
      r.mqtt_payload = none) ∧
    ((handleSend st env).attempted = true → env.publishOk = true →
      ∃ m, env.modelResp = some m ∧
        r.mqtt_payload = some (extractMqttValue (m.payload.getD .null))) := by
  obtain ⟨ai, asst, hmodel, _, hatt, _, _, _, _, hmqtt, _⟩ :=
    handleSend_persisted_inv st env r h
  refine ⟨?_, ?_, ?_⟩
  · intro hne
    by_contra hcon
    rw [Decidable.not_and_iff_or_not] at hcon
    have : ((handleSend st env).attempted && env.publishOk) = false := by
      rcases hcon with hc | hc <;>
        simp [Bool.eq_false_iff.mpr hc, Bool.and_eq_false_iff]
    rw [this] at hmqtt
    simp at hmqtt
    exact hne hmqtt
  · intro hor
    have : ((handleSend st env).attempted && env.publishOk) = false := by
      rcases hor with hc | hc <;> simp [hc]
    rw [this] at hmqtt
    simpa using hmqtt
  · intro ha hp
    refine ⟨ai, hmodel, ?_⟩
    rw [ha, hp] at hmqtt
    simp only [Bool.and_self, if_true] at hmqtt
    rw [ha] at hatt
    have htru : jsTruthy ai.payload = true := by
      have := hatt.symm
      simp [Bool.and_eq_true] at this
      exact this.1.1
    obtain ⟨p, hp'⟩ : ∃ p, ai.payload = some p := by
      cases hpay : ai.payload
      · rw [hpay] at htru; simp [jsTruthy] at htru
      · exact ⟨_, rfl⟩
    rw [hp'] at htru
    rw [hmqtt, hp']
    simp only [Option.getD_some]
    exact mqttValueToSave_eq_extract htru

/-- The row `handleSend stBase envBase` persists. -/
def sampleRow : MessageRow :=
  { id := "msg-1", session_id := "sess-1", assistant_id := "asst-1",
    user_text := some "hello", assistant_payload := some samplePayload,
    response_text := some "x",
    mqtt_payload := some (.obj (.cons "answer" (.str "x") .nil)),
    device_id := some "dev-1", thread_id := some "thread-A", reaction := none,
    created_at := 1000 }

/-- Witness for C3: a concrete successful send whose stored `mqtt_payload`
is the extracted MQTT value. -/
theorem persisted_delivery_invariant_witness :
    (handleSend stBase envBase).persisted = some sampleRow ∧
    ∃ m, envBase.modelResp = some m ∧
      sampleRow.mqtt_payload = some (extractMqttValue (m.payload.getD .null)) :=
  ⟨by decide,
    (persisted_delivery_invariant stBase envBase sampleRow (by decide)).2.2
      (by decide) (by decide)⟩

/-- When the first send guard has a session id and some credential, it does
not fire. -/
lemma sendGuard_false {st : ClientState}
    (hsid : st.sessionId.isSome = true)
    (hcred : st.token.isSome = true ∨ st.shareToken.isSome = true) :
    (st.sessionId.isNone || (st.token.isNone && st.shareToken.isNone)) = false := by
  have h1 : st.sessionId.isNone = false := by
    cases hs : st.sessionId
    · rw [hs] at hsid; simp at hsid
    · rfl
  rcases hcred with hc | hc
  · have h2 : st.token.isNone = false := by
      cases ht : st.token
      · rw [ht] at hc; simp at hc
      · rfl
    simp [h1, h2]
  · have h2 : st.shareToken.isNone = false := by
      cases ht : st.shareToken
      · rw [ht] at hc; simp at hc
      · rfl
    simp [h1, h2]

/-- Rolling back the optimistic bubble restores the previous view when its
temp id was fresh. -/
lemma rollback_fresh (msgs : List Bubble) (b : Bubble)
    (hfresh : ∀ x ∈ msgs, x.id ≠ b.id) :
    (msgs ++ [b]).filter (fun x => x.id ≠ b.id) = msgs := by
  rw [List.filter_append]
  have h1 : msgs.filter (fun x => x.id ≠ b.id) = msgs :=
    List.filter_eq_self.mpr (fun x hx => by simpa using hfresh x hx)
  rw [h1]
  simp

/-- C6: a send against a session whose `active` field is false fails before
the model is called, persists nothing, surfaces the stopped-session error,
and the optimistic user bubble is removed, leaving the local view as it
was. -/
theorem stopped_session_atomicity (st : ClientState) (env : SendEnv) (s : SessionRec)
    (hsid : st.sessionId.isSome = true)
    (hcred : st.token.isSome = true ∨ st.shareToken.isSome = true)
    (hinput : (jsTrim st.input).isEmpty = false)
    (hsess : env.session = some s)
    (hactive : s.active = false)
    (hfresh : ∀ b ∈ st.messages, b.id ≠ "temp-" ++ toString env.now) :
    (handleSend st env).persisted = none ∧
    (handleSend st env).modelCalled = false ∧
    (handleSend st env).messages = st.messages ∧
    (handleSend st env).error =
      some "This session has stopped. The host needs to start a new run." := by
  have hguard : (st.sessionId.isNone || (st.token.isNone && st.shareToken.isNone)) = false :=
    sendGuard_false hsid hcred
  have hmap : mapSendError "Session is not running" =
      "This session has stopped. The host needs to start a new run." := by decide
  simp only [handleSend, hguard, hinput, hsess, hactive, Bool.false_eq_true, if_false,
    Bool.not_false, if_true, hmap]
  refine ⟨trivial, trivial, ?_, trivial⟩
  exact rollback_fresh st.messages (optimisticBubble (jsTrim st.input) env.now)
    (fun x hx => by simpa [optimisticBubble] using hfresh x hx)

/-- A stopped session. -/
def sessStopped : SessionRec := { sessBase with active := false }

/-- The sample environment with the session stopped. -/
def envStopped : SendEnv := { envBase with session := some sessStopped }

/-- Witness for C6: the stopped-session rejection at a concrete state. -/
theorem stopped_session_atomicity_witness :
    (handleSend stBase envStopped).persisted = none ∧
    (handleSend stBase envStopped).modelCalled = false ∧
    (handleSend stBase envStopped).messages = stBase.messages ∧
    (handleSend stBase envStopped).error =
      some "This session has stopped. The host needs to start a new run." :=
  stopped_session_atomicity stBase envStopped sessStopped (by decide) (Or.inr (by decide))
    (by decide) (by decide) (by decide) (by decide)

/-- C5 (amended): a turn with neither a bearer token nor any share token is
rejected with no row written — silently when both are absent (the guard
returns before the optimistic insert), and with the NotAuthorized error
when a bearer token is present but resolves to no authenticated user and no
share token is present. The share token's value is not compared against the
session's stored token on the send path. -/
theorem auth_gate_amended (st : ClientState) (env : SendEnv) :
    (st.token = none → st.shareToken = none →
      (handleSend st env).persisted = none ∧
      (handleSend st env).modelCalled = false ∧
      (handleSend st env).messages = st.messages ∧
      (handleSend st env).error = st.error) ∧
    (∀ s : SessionRec, st.sessionId.isSome = true → st.token.isSome = true →
      st.shareToken = none → (jsTrim st.input).isEmpty = false →
      env.session = some s → s.active = true → env.user = none →
      (∀ b ∈ st.messages, b.id ≠ "temp-" ++ toString env.now) →
      (handleSend st env).persisted = none ∧
      (handleSend st env).modelCalled = false ∧
      (handleSend st env).messages = st.messages ∧
      (handleSend st env).error =
        some "You need to log in to send messages. Viewing history works without login.") := by
  constructor
  · intro htok hshare
    simp [handleSend, htok, hshare]
  · intro s hsid htok hshare hinput hsess hactive huser hfresh
    have h1 : st.sessionId.isNone = false := by
      cases hs : st.sessionId
      · rw [hs] at hsid; simp at hsid
      · rfl
    have h2 : st.token.isNone = false := by
      cases ht : st.token
      · rw [ht] at htok; simp at htok
      · rfl
    have hmap : mapSendError "Not authorized" =
        "You need to log in to send messages. Viewing history works without login." := by decide
    simp only [handleSend, h1, h2, hinput, hsess, hactive, huser, hshare, Bool.false_eq_true,
      Bool.false_and, Bool.and_false, Bool.or_false, Bool.false_or, if_false, Bool.not_true,
      Option.isNone_none, Bool.and_true, Bool.true_and, if_true, hmap]
    refine ⟨trivial, trivial, ?_, trivial⟩
    exact rollback_fresh st.messages (optimisticBubble (jsTrim st.input) env.now)
      (fun x hx => by simpa [optimisticBubble] using hfresh x hx)

/-- The sample client presenting a share token that does not match the
session's stored one. -/
def stWrongShare : ClientState := { stBase with shareToken := some "wrong" }

/-- Counterexample to C5 as stated: with no bearer credential and a share
token that does not match the stored `share_token`, the send is not
rejected — a row is persisted and no error is surfaced. -/
theorem auth_gate_counterexample :
    stWrongShare.token = none ∧
    stWrongShare.shareToken = some "wrong" ∧
    envBase.session = some sessBase ∧
    sessBase.share_token = "secret" ∧
    (handleSend stWrongShare envBase).persisted.isSome = true ∧
    (handleSend stWrongShare envBase).error = none := by decide

/-- The sample client holding a stale bearer token and no share token. -/
def stStaleToken : ClientState := { stBase with token := some "tok-1", shareToken := none }

/-- Witness for C5 (amended): the NotAuthorized rejection at a concrete
state whose bearer token resolves to no user. -/
theorem auth_gate_amended_witness :
    (handleSend stStaleToken envBase).persisted = none ∧
    (handleSend stStaleToken envBase).modelCalled = false ∧
    (handleSend stStaleToken envBase).messages = stStaleToken.messages ∧
    (handleSend stStaleToken envBase).error =
      some "You need to log in to send messages. Viewing history works without login." :=
  (auth_gate_amended stStaleToken envBase).2 sessBase (by decide) (by decide) (by decide)
    (by decide) (by decide) (by decide) (by decide) (by decide)

/-- An assistant with no MQTT host or topic configured. -/
def asstNoMqtt : AssistantRec := { id := "asst-1", mqtt_host := none, mqtt_topic := none }

/-- The sample environment with an MQTT-less assistant. -/
def envNoMqtt : SendEnv := { envBase with assistant := some asstNoMqtt }

/-- The row persisted by a turn whose assistant has no MQTT configuration:
payload stored, `mqtt_payload` null because no publish was attempted. -/
def noMqttRow : MessageRow := { sampleRow with mqtt_payload := none }

/-- C2: the claim is the coded intent but `mapMessageRecord` cannot honour
it — a turn run with no MQTT host/topic attempts no publish and stores
`mqtt_payload = null` next to a non-null `assistant_payload`, and on reload
`mapMessageRecord` flags that bubble `mqttFailed` (the send-path rendering
of the very same turn is unflagged). -/
theorem mqtt_failure_flag_code_bug :
    (handleSend stBase envNoMqtt).attempted = false ∧
    (handleSend stBase envNoMqtt).persisted = some noMqttRow ∧
    noMqttRow.assistant_payload.isSome = true ∧
    noMqttRow.mqtt_payload = none ∧
    ((handleSend stBase envNoMqtt).messages.map Bubble.mqttFailed) = [false, false] ∧
    ((mapMessageRecord noMqttRow).map Bubble.mqttFailed) = [false, true] := by decide

/-- C8: the value selected for publication is the first of `MQTT_value`,
`MQTT_values`, `values` that is present and non-null, in that order, else
the whole payload; and for the sample payload with both `answer` and
`MQTT_value`, a successful turn stores `mqtt_payload` equal to the object
under `MQTT_value`. -/
theorem mqtt_extraction_order :
    (∀ p v, p.getPresent "MQTT_value" = some v → extractMqttValue p = v) ∧
    (∀ p v, p.getPresent "MQTT_value" = none → p.getPresent "MQTT_values" = some v →
      extractMqttValue p = v) ∧
    (∀ p v, p.getPresent "MQTT_value" = none → p.getPresent "MQTT_values" = none →
      p.getPresent "values" = some v → extractMqttValue p = v) ∧
    (∀ p, p.getPresent "MQTT_value" = none → p.getPresent "MQTT_values" = none →
      p.getPresent "values" = none → extractMqttValue p = p) ∧
    ((handleSend stBase envBase).persisted = some sampleRow ∧
      sampleRow.mqtt_payload = some (.obj (.cons "answer" (.str "x") .nil))) := by
  refine ⟨?_, ?_, ?_, ?_, by decide, by decide⟩
  · intro p v h
    unfold extractMqttValue
    rw [h]
  · intro p v h1 h2
    unfold extractMqttValue
    rw [h1, h2]
  · intro p v h1 h2 h3
    unfold extractMqttValue
    rw [h1, h2, h3]
  · intro p h1 h2 h3
    unfold extractMqttValue
    rw [h1, h2, h3]

/-- Witness for C8: the extraction-order theorem applied to the sample
payload, whose `MQTT_value` field is selected. -/
theorem mqtt_extraction_order_witness :
    samplePayload.getPresent "MQTT_value" = some (.obj (.cons "answer" (.str "x") .nil)) ∧
    extractMqttValue samplePayload = .obj (.cons "answer" (.str "x") .nil) :=
  ⟨by decide, mqtt_extraction_order.1 samplePayload _ (by decide)⟩

/-- C10: the value handed to the broker is wrapped whenever the extracted
value is null, undefined, the empty string, or not of object type, so the
published payload is always a (non-null) object; the persisted value is the
unwrapped one, so for a non-object extracted value the published and stored
payloads differ. -/
theorem published_vs_stored_divergence :
    (∀ v : Json, (v = .null ∨ v = .str "" ∨ v.isObjectType = false) →
      wrapMqttPayload v = .obj (.cons "value" v .nil)) ∧
    (∀ v : Json, (wrapMqttPayload v).isObjectType = true ∧ wrapMqttPayload v ≠ .null) ∧
    (∀ (st : ClientState) (env : SendEnv) (r : MessageRow) (w : Json) (m : ModelResp),
      env.modelResp = some m →
      (handleSend st env).persisted = some r →
      (handleSend st env).published = some w →
      env.publishOk = true →
      (extractMqttValue (m.payload.getD .null)).isObjectType = false →
      w = .obj (.cons "value" (extractMqttValue (m.payload.getD .null)) .nil) ∧
      r.mqtt_payload = some (extractMqttValue (m.payload.getD .null)) ∧
      some w ≠ r.mqtt_payload) := by
  have hwrap : ∀ v : Json, (v = .null ∨ v = .str "" ∨ v.isObjectType = false) →
      wrapMqttPayload v = .obj (.cons "value" v .nil) := by
    intro v hv
    unfold wrapMqttPayload
    rw [if_pos]
    rcases hv with h | h | h
    · exact Or.inl h
    · exact Or.inr (Or.inl h)
    · exact Or.inr (Or.inr (by simp [h]))
  refine ⟨hwrap, ?_, ?_⟩
  · intro v
    unfold wrapMqttPayload
    split
    · exact ⟨rfl, by simp⟩
    · rename_i hcond
      push_neg at hcond
      obtain ⟨hnull, _, hobj⟩ := hcond
      constructor
      · simpa using hobj
      · exact hnull
  · intro st env r w m hm hpers hpub hok hnotobj
    obtain ⟨ai, asst, hmodel, _, hatt, _, _, _, _, hmqtt, hpubeq⟩ :=
      handleSend_persisted_inv st env r hpers
    have hai : ai = m := by
      rw [hm] at hmodel
      exact (Option.some_injective _ hmodel.symm)
    subst hai
    have hattTrue : (handleSend st env).attempted = true := by
      by_contra hcon
      have : (handleSend st env).attempted = false := Bool.eq_false_iff.mpr hcon
      rw [this] at hpubeq
      simp at hpubeq
      rw [hpubeq] at hpub
      cases hpub
    rw [hattTrue] at hpubeq hmqtt
    simp only [if_true, hok, Bool.and_self] at hpubeq hmqtt
    rw [hpubeq] at hpub
    have hw : w = wrapMqttPayload (extractMqttValue (ai.payload.getD .null)) :=
      (Option.some_injective _ hpub).symm
    have htru : jsTruthy ai.payload = true := by
      rw [hattTrue] at hatt
      have := hatt.symm
      simp [Bool.and_eq_true] at this
      exact this.1.1
    obtain ⟨p, hp'⟩ : ∃ p, ai.payload = some p := by
      cases hpay : ai.payload
      · rw [hpay] at htru; simp [jsTruthy] at htru
      · exact ⟨_, rfl⟩
    have hsave : mqttValueToSave (ai.payload.getD .null) =
        some (extractMqttValue (ai.payload.getD .null)) := by
      rw [hp']
      simp only [Option.getD_some]
      exact mqttValueToSave_eq_extract (by rw [hp'] at htru; exact htru)
    rw [hsave] at hmqtt
    have hwval : w = .obj (.cons "value" (extractMqttValue (ai.payload.getD .null)) .nil) := by
      rw [hw]
      exact hwrap _ (Or.inr (Or.inr hnotobj))
    refine ⟨hwval, hmqtt, ?_⟩
    rw [hmqtt, hwval]
    intro hcontra
    have := Option.some_injective _ hcontra
    rw [← this] at hnotobj
    simp [Json.isObjectType] at hnotobj

/-- A payload whose extracted MQTT value is a primitive string. -/
def payloadPrim : Json :=
  .obj (.cons "answer" (.str "on") (.cons "MQTT_value" (.str "on") .nil))

/-- The model response carrying `payloadPrim`. -/
def modelRespPrim : ModelResp :=
  { payload := some payloadPrim, response_id := some "resp-2", display_text := some "on" }

/-- The sample environment with the primitive-valued payload. -/
def envPrim : SendEnv := { envBase with modelResp := some modelRespPrim }

/-- The row persisted by the primitive-valued turn. -/
def primRow : MessageRow :=
  { sampleRow with assistant_payload := some payloadPrim, response_text := some "on", mqtt_payload := some (.str "on") }

/-- The object actually published for the primitive extracted value. -/
def wrappedOn : Json := .obj (.cons "value" (.str "on") .nil)

/-- Witness for C10: a concrete turn whose extracted value is the string
`on` publishes the wrapped object but stores the bare string. -/
theorem published_vs_stored_divergence_witness :
    wrappedOn = .obj (.cons "value" (extractMqttValue (modelRespPrim.payload.getD .null)) .nil) ∧
    primRow.mqtt_payload = some (extractMqttValue (modelRespPrim.payload.getD .null)) ∧
    some wrappedOn ≠ primRow.mqtt_payload :=
  published_vs_stored_divergence.2.2 stBase envPrim primRow wrappedOn modelRespPrim
    (by decide) (by decide) (by decide) (by decide) (by decide)

/-- C4: the history query filters by both session id and thread id, so a
row persisted under thread A is never part of the history returned for a
different thread B, even within the same session. -/
theorem thread_isolation (store : List MessageRow) (sid A B : String) (r : MessageRow)
    (hAB : A ≠ B) (hr : r.thread_id = some A) :
    r ∉ queryThreadMessages store sid B := by
  unfold queryThreadMessages
  intro hmem
  have hmem' : r ∈ store.filter (fun x => x.session_id = sid && x.thread_id = some B) :=
    (List.perm_insertionSort byCreated _).mem_iff.mp hmem
  have hpred := List.of_mem_filter hmem'
  simp only [hr, Bool.and_eq_true, decide_eq_true_eq] at hpred
  exact hAB (Option.some_injective _ hpred.2)

/-- Witness for C4: the sample row, stored under thread A, is absent from
the history of thread B. -/
theorem thread_isolation_witness :
    sampleRow.thread_id = some "thread-A" ∧
    sampleRow ∉ queryThreadMessages [sampleRow] "sess-1" "thread-B" :=
  ⟨by decide,
    thread_isolation [sampleRow] "sess-1" "thread-A" "thread-B" sampleRow
      (by decide) (by decide)⟩

/-- C9 (amended): a row with no truthy `user_text` or `response_text` whose
`assistant_payload` is an object whose only key is `_response_id_marker` is
excluded from the displayable list (in particular the claim's marker shape
with both texts null); those are the only rows excluded; and every row with
a truthy `user_text`, `response_text`, or `assistant_payload` maps to at
least one visible bubble. -/
theorem marker_row_filtering_amended :
    (∀ (r : MessageRow) (v : Json), r.user_text = none → r.response_text = none →
      r.assistant_payload = some (.obj (.cons "_response_id_marker" v .nil)) →
      isDisplayable r = false) ∧
    (∀ r : MessageRow, isDisplayable r = false →
      strTruthy r.user_text = false ∧ strTruthy r.response_text = false ∧
      ∃ p, r.assistant_payload = some p ∧ p.jsKeys = ["_response_id_marker"]) ∧
    (∀ r : MessageRow,
      strTruthy r.user_text = true ∨ strTruthy r.response_text = true ∨
        jsTruthy r.assistant_payload = true →
      mapMessageRecord r ≠ []) := by
  refine ⟨?_, ?_, ?_⟩
  · intro r v hut hrt hp
    unfold isDisplayable
    rw [hut, hrt, hp]
    simp [strTruthy, jsTruthy, Json.isObjectType, Json.jsKeys, JsonFields.keys]
  · intro r h
    unfold isDisplayable at h
    split at h
    · cases h
    · rename_i hcond
      rw [Bool.or_eq_true] at hcond
      push_neg at hcond
      refine ⟨Bool.eq_false_iff.mpr hcond.1, Bool.eq_false_iff.mpr hcond.2, ?_⟩
      split at h
      · rename_i p heq
        refine ⟨p, heq, ?_⟩
        split at h
        · rename_i hkeys
          have h' : (if p.jsKeys.length = 1 ∧ p.jsKeys.head? = some "_response_id_marker"
              then (false : Bool) else true) = false := h
          split at h'
          · rename_i hmark
            obtain ⟨a, ha⟩ := List.length_eq_one.mp hmark.1
            rw [ha]
            rw [ha] at hmark
            simp at hmark
            rw [hmark]
          · cases h'
        · cases h
      · cases h
  · intro r h
    unfold mapMessageRecord
    cases hut : strTruthy r.user_text
    · have hor : (strTruthy r.response_text || jsTruthy r.assistant_payload) = true := by
        rcases h with h | h | h
        · rw [hut] at h; cases h
        · simp [h]
        · simp [h]
      simp [hut, hor]
    · simp [hut]

/-- A marker row: both texts null and the payload an object with the single
key `_response_id_marker`. -/
def markerRow : MessageRow :=
  { id := "r1", session_id := "sess-1", assistant_id := "asst-1", user_text := none,
    assistant_payload := some (.obj (.cons "_response_id_marker" (.str "resp-9") .nil)),
    response_text := none, mqtt_payload := none, device_id := none,
    thread_id := some "thread-A", reaction := none, created_at := 5 }

/-- Witness for C9 (amended): the concrete marker row is excluded. -/
theorem marker_row_filtering_amended_witness :
    isDisplayable markerRow = false :=
  marker_row_filtering_amended.1 markerRow (.str "resp-9") (by decide) (by decide) (by decide)

/-- A row with every optional field null. -/
def emptyRow : MessageRow :=
  { id := "r0", session_id := "sess-1", assistant_id := "asst-1", user_text := none,
    assistant_payload := none, response_text := none, mqtt_payload := none,
    device_id := none, thread_id := some "thread-A", reaction := none, created_at := 1 }

/-- Counterexample to C9 as stated: the all-null row is not of the marker
shape, passes the displayable filter, and yet maps to no visible bubble. -/
theorem marker_row_filtering_counterexample :
    emptyRow.user_text = none ∧ emptyRow.response_text = none ∧
    emptyRow.assistant_payload = none ∧
    isDisplayable emptyRow = true ∧
    mapMessageRecord emptyRow = [] := by decide

/-- C7: reset clears only the in-memory view and the remembered
continuation id and adopts the freshly minted thread id, issuing no store
operation; hence the per-session row count never decreases over any
sequence of sends and resets. -/
theorem reset_storage_monotonicity :
    (∀ (s : AppState) (nt : String),
      (stepOp s (.reset nt)).store = s.store ∧
      (stepOp s (.reset nt)).client.messages = [] ∧
      (stepOp s (.reset nt)).client.lastResponseId = none ∧
      (stepOp s (.reset nt)).client.threadId = nt) ∧
    (∀ (ops : List Op) (s : AppState) (sid : String),
      sessionRowCount s.store sid ≤ sessionRowCount (runOps s ops).store sid) := by
  constructor
  · intro s nt
    exact ⟨rfl, rfl, rfl, rfl⟩
  · intro ops
    induction ops with
    | nil => intro s sid; simp [runOps, sessionRowCount]
    | cons op rest ih =>
      intro s sid
      have hstep : sessionRowCount s.store sid ≤ sessionRowCount (stepOp s op).store sid := by
        cases op with
        | send input env =>
          simp only [stepOp, sessionRowCount]
          rw [List.countP_append]
          exact Nat.le_add_right _ _
        | reset nt => exact Nat.le_refl _
      have hrest := ih (stepOp s op) sid
      have hrun : runOps s (op :: rest) = runOps (stepOp s op) rest := rfl
      rw [hrun]
      exact Nat.le_trans hstep hrest

/-! ## Queue Resolver lemmas -/

/-- If `find?` with a weaker predicate finds `a` and the stronger predicate
also holds at `a`, `find?` with the stronger predicate finds `a` too. -/
lemma find?_of_imp {α : Type} {l : List α} {p q : α → Bool} {a : α}
    (h : l.find? p = some a) (hq : q a = true)
    (himp : ∀ w, q w = true → p w = true) : l.find? q = some a := by
  induction l with
  | nil => simp at h
  | cons x xs ih =>
    rw [List.find?_cons] at h
    rw [List.find?_cons]
    cases hqx : q x with
    | true =>
      have hpx : p x = true := himp x hqx
      rw [hpx] at h
      simpa using h
    | false =>
      cases hpx : p x with
      | true =>
        rw [hpx] at h
        simp only at h
        have hax : x = a := Option.some_injective _ h
        rw [hax] at hqx
        rw [hqx] at hq
        cases hq
      | false =>
        rw [hpx] at h
        simp only at h
        exact ih h

/-- A present satisfying element makes `findIdx?` succeed. -/
lemma findIdx?_isSome_of_mem {α : Type} {l : List α} {p : α → Bool} {a : α}
    (ha : a ∈ l) (hp : p a = true) : (List.findIdx? p l).isSome = true := by
  cases hfind : List.findIdx? p l with
  | none =>
    rw [List.findIdx?_eq_none_iff] at hfind
    rw [hfind a ha] at hp
    cases hp
  | some i => rfl

/-- The head of the stable ascending insertion sort is the first element of
the original list attaining the minimal key — the earliest `joined_at`,
ties broken by insertion order. -/
lemma insertionSort_head_first_min (l : List PresenceRecord) :
    (List.insertionSort byJoin l).head? =
      l.find? (fun w => l.all (fun u => w.joined_at ≤ u.joined_at)) := by
  induction l with
  | nil => simp
  | cons a l ih =>
    cases hl : l with
    | nil =>
      simp [List.insertionSort, List.orderedInsert, List.find?]
    | cons b l₂ =>
      rw [← hl]
      have hlength : (List.insertionSort byJoin l).length = l.length :=
        (List.perm_insertionSort byJoin l).length_eq
      cases hs : List.insertionSort byJoin l with
      | nil =>
        rw [hs] at hlength
        rw [hl] at hlength
        cases hlength
      | cons h s' =>
        have hperm : (h :: s').Perm l := hs ▸ List.perm_insertionSort byJoin l
        have hsorted : List.Sorted byJoin (h :: s') := hs ▸ List.sorted_insertionSort byJoin l
        have hmem : h ∈ l := hperm.mem_iff.mp (List.mem_cons_self h s')
        have hmin : ∀ u ∈ l, h.joined_at ≤ u.joined_at := by
          intro u hu
          rcases List.mem_cons.mp (hperm.mem_iff.mpr hu : u ∈ h :: s') with hh | hh'
          · rw [hh]
          · exact List.rel_of_sorted_cons hsorted u hh'
        have hstep : List.insertionSort byJoin (a :: l) =
            List.orderedInsert byJoin a (h :: s') := by
          rw [← hs]
          rfl
        rw [hstep]
        by_cases hab : byJoin a h
        · rw [List.orderedInsert, if_pos hab]
          have hpa : ((a :: l).all (fun u => a.joined_at ≤ u.joined_at)) = true := by
            rw [List.all_eq_true]
            intro u hu
            rcases List.mem_cons.mp hu with hh | hh'
            · rw [hh]; simp
            · exact decide_eq_true (Nat.le_trans hab (hmin u hh'))
          rw [List.find?_cons]
          rw [hpa]
          rfl
        · rw [List.orderedInsert, if_neg hab]
          have hpa : ((a :: l).all (fun u => a.joined_at ≤ u.joined_at)) = false := by
            apply Bool.eq_false_iff.mpr
            intro hall
            exact hab (of_decide_eq_true
              (List.all_eq_true.mp hall h (List.mem_cons_of_mem a hmem)))
          rw [List.find?_cons, hpa]
          simp only [List.head?_cons]
          rw [hs] at ih
          simp only [List.head?_cons] at ih
          have hfound : l.find? (fun w => l.all (fun u => w.joined_at ≤ u.joined_at)) = some h :=
            ih.symm
          have hq : ((a :: l).all (fun u => h.joined_at ≤ u.joined_at)) = true := by
            rw [List.all_eq_true]
            intro u hu
            rcases List.mem_cons.mp hu with hh | hh'
            · rw [hh]
              exact decide_eq_true (Nat.le_of_not_le hab)
            · exact decide_eq_true (hmin u hh')
          have himp : ∀ w : PresenceRecord,
              ((a :: l).all (fun u => w.joined_at ≤ u.joined_at)) = true →
              (l.all (fun u => w.joined_at ≤ u.joined_at)) = true := by
            intro w hw
            rw [List.all_eq_true] at hw ⊢
            intro u hu
            exact hw u (List.mem_cons_of_mem a hu)
          exact (find?_of_imp hfound hq himp).symm

/-- Over a list with pairwise-distinct device ids, looking every element's
own id up via `findIndex` enumerates exactly the indices `0..N-1`. -/
lemma map_findIndexJs_range (s : List PresenceRecord)
    (h : (s.map PresenceRecord.device_id).Nodup) :
    s.map (fun v => findIndexJs (fun w => w.device_id = v.device_id) s) =
      (List.range s.length).map (fun i => Int.ofNat i) := by
  induction s with
  | nil => simp
  | cons a t ih =>
    rw [List.map_cons, List.nodup_cons] at h
    have hna : ∀ v ∈ t, (decide (a.device_id = v.device_id)) = false := by
      intro v hv
      apply decide_eq_false
      intro heq
      exact h.1 (heq ▸ List.mem_map_of_mem PresenceRecord.device_id hv)
    rw [List.map_cons]
    have hhead : findIndexJs (fun w => w.device_id = a.device_id) (a :: t) = 0 := by
      unfold findIndexJs
      rw [List.findIdx?_cons]
      simp
    have htail : t.map (fun v => findIndexJs (fun w => w.device_id = v.device_id) (a :: t)) =
        t.map (fun v => findIndexJs (fun w => w.device_id = v.device_id) t + 1) := by
      apply List.map_congr_left
      intro v hv
      unfold findIndexJs
      rw [List.findIdx?_cons, hna v hv, if_neg (by simp), List.findIdx?_succ]
      cases hf : List.findIdx? (fun w => decide (w.device_id = v.device_id)) t with
      | none =>
        exfalso
        have hsome := @findIdx?_isSome_of_mem _ t
          (fun w => decide (w.device_id = v.device_id)) v hv (by exact decide_eq_true rfl)
        rw [hf] at hsome
        cases hsome
      | some i => simp
    rw [hhead, htail]
    have hmm : t.map (fun v => findIndexJs (fun w => w.device_id = v.device_id) t + 1) =
        (t.map (fun v => findIndexJs (fun w => w.device_id = v.device_id) t)).map
          (fun x => x + 1) := by
      rw [List.map_map]
      rfl
    rw [hmm, ih h.2]
    rw [List.length_cons, List.range_succ_eq_map]
    rw [List.map_cons, List.map_map, List.map_map]
    refine congrArg (fun tl => ((0 : Int)) :: tl) ?_
    apply List.map_congr_left
    intro i _
    simp [Function.comp]

/-- A device whose record is not tracked gets queue position 0 and is not
active. -/
lemma queuePosition_absent (viewers : List PresenceRecord) (did : String)
    (h : ∀ v ∈ viewers, v.device_id ≠ did) :
    queuePosition viewers did = 0 ∧ isActiveUser viewers did = false := by
  have hnone : List.findIdx? (fun v => decide (v.device_id = did)) (sortViewers viewers) = none := by
    rw [List.findIdx?_eq_none_iff]
    intro x hx
    have hxv : x ∈ viewers := (List.perm_insertionSort byJoin viewers).mem_iff.mp hx
    exact decide_eq_false (h x hxv)
  unfold queuePosition isActiveUser myQueueIndex findIndexJs
  rw [hnone]
  exact ⟨rfl, rfl⟩

/-- C1: for a non-empty viewer list with pairwise-distinct device ids,
exactly one device is active — the first in presence order among those with
the earliest `joined_at` — the queue positions of all devices are a
permutation of `1..N`, and an untracked device gets position 0 and is
inactive. -/
theorem queue_resolver_exclusivity (viewers : List PresenceRecord)
    (hne : viewers ≠ [])
    (hnodup : (viewers.map PresenceRecord.device_id).Nodup) :
    (∃ v ∈ viewers,
      isActiveUser viewers v.device_id = true ∧
      (∀ w ∈ viewers, v.joined_at ≤ w.joined_at) ∧
      viewers.find? (fun w => viewers.all (fun u => w.joined_at ≤ u.joined_at)) = some v ∧
      (∀ w ∈ viewers, isActiveUser viewers w.device_id = true → w = v)) ∧
    (viewers.map (fun v => queuePosition viewers v.device_id)).Perm
      ((List.range viewers.length).map (fun i => Int.ofNat i + 1)) ∧
    (∀ did : String, (∀ v ∈ viewers, v.device_id ≠ did) →
      queuePosition viewers did = 0 ∧ isActiveUser viewers did = false) := by
  have hperm : (sortViewers viewers).Perm viewers := List.perm_insertionSort byJoin viewers
  obtain ⟨h, s', hs⟩ : ∃ h s', sortViewers viewers = h :: s' := by
    cases hsv : sortViewers viewers with
    | nil =>
      exfalso
      have hlen := hperm.length_eq
      rw [hsv] at hlen
      exact hne (List.length_eq_zero.mp hlen.symm)
    | cons h s' => exact ⟨h, s', rfl⟩
  have hpermc : (h :: s').Perm viewers := hs ▸ hperm
  have hsorted : List.Sorted byJoin (h :: s') := by
    have := List.sorted_insertionSort byJoin viewers
    rw [show List.insertionSort byJoin viewers = sortViewers viewers from rfl, hs] at this
    exact this
  have hmemh : h ∈ viewers := hpermc.mem_iff.mp (List.mem_cons_self h s')
  have hminv : ∀ w ∈ viewers, h.joined_at ≤ w.joined_at := by
    intro w hw
    rcases List.mem_cons.mp (hpermc.mem_iff.mpr hw : w ∈ h :: s') with hh | hh'
    · rw [hh]
    · exact List.rel_of_sorted_cons hsorted w hh'
  have hidx0 : myQueueIndex viewers h.device_id = 0 := by
    unfold myQueueIndex findIndexJs
    rw [hs, List.findIdx?_cons, if_pos (by exact decide_eq_true rfl)]
    rfl
  have hactive : isActiveUser viewers h.device_id = true := by
    unfold isActiveUser
    rw [hidx0]
    rfl
  refine ⟨⟨h, hmemh, hactive, hminv, ?_, ?_⟩, ?_, ?_⟩
  · have hhead := insertionSort_head_first_min viewers
    rw [show List.insertionSort byJoin viewers = sortViewers viewers from rfl, hs] at hhead
    exact hhead.symm
  · intro w hw hactw
    unfold isActiveUser at hactw
    have hidxw : myQueueIndex viewers w.device_id = 0 := of_decide_eq_true hactw
    unfold myQueueIndex findIndexJs at hidxw
    rw [hs, List.findIdx?_cons] at hidxw
    by_cases hph : h.device_id = w.device_id
    · exact List.inj_on_of_nodup_map hnodup hw hmemh (hph.symm)
    · exfalso
      rw [if_neg (by simpa using hph)] at hidxw
      rw [List.findIdx?_succ] at hidxw
      cases hfind : List.findIdx? (fun v => decide (v.device_id = w.device_id)) s' with
      | none => rw [hfind] at hidxw; cases hidxw
      | some j =>
        rw [hfind] at hidxw
        simp at hidxw
        omega
  · have hnods : ((sortViewers viewers).map PresenceRecord.device_id).Nodup :=
      ((hperm.map PresenceRecord.device_id).nodup_iff).mpr hnodup
    have hcast : viewers.map (fun v => queuePosition viewers v.device_id) =
        viewers.map (fun v =>
          findIndexJs (fun w => w.device_id = v.device_id) (sortViewers viewers) + 1) := rfl
    rw [hcast]
    have hstep1 : (viewers.map (fun v =>
        findIndexJs (fun w => w.device_id = v.device_id) (sortViewers viewers) + 1)).Perm
        ((sortViewers viewers).map (fun v =>
          findIndexJs (fun w => w.device_id = v.device_id) (sortViewers viewers) + 1)) :=
      List.Perm.map _ hperm.symm
    have hstep2 : (sortViewers viewers).map (fun v =>
        findIndexJs (fun w => w.device_id = v.device_id) (sortViewers viewers) + 1) =
        ((sortViewers viewers).map (fun v =>
          findIndexJs (fun w => w.device_id = v.device_id) (sortViewers viewers))).map
            (fun x => x + 1) := by
      rw [List.map_map]
      rfl
    have hstep3 := map_findIndexJs_range (sortViewers viewers) hnods
    have hlen : (sortViewers viewers).length = viewers.length := hperm.length_eq
    rw [hstep2, hstep3, hlen, List.map_map] at hstep1
    exact hstep1
  · exact queuePosition_absent viewers

/-- Three concrete viewers: the join-time tie between devB and devC is
broken by insertion order. -/
def viewersSample : List PresenceRecord :=
  [{ device_id := "devA", joined_at := 5 }, { device_id := "devB", joined_at := 3 },
   { device_id := "devC", joined_at := 3 }]

/-- Witness for C1: the queue-resolver properties at a concrete non-empty
viewer list with distinct device ids. -/
theorem queue_resolver_exclusivity_witness :
    (∃ v ∈ viewersSample,
      isActiveUser viewersSample v.device_id = true ∧
      (∀ w ∈ viewersSample, v.joined_at ≤ w.joined_at) ∧
      viewersSample.find?
        (fun w => viewersSample.all (fun u => w.joined_at ≤ u.joined_at)) = some v ∧
      (∀ w ∈ viewersSample, isActiveUser viewersSample w.device_id = true → w = v)) ∧
    (viewersSample.map (fun v => queuePosition viewersSample v.device_id)).Perm
      ((List.range viewersSample.length).map (fun i => Int.ofNat i + 1)) ∧
    (∀ did : String, (∀ v ∈ viewersSample, v.device_id ≠ did) →
      queuePosition viewersSample did = 0 ∧ isActiveUser viewersSample did = false) :=
  queue_resolver_exclusivity viewersSample (by decide) (by decide)

end PromptingRealities
